import Mathlib

/-!
Shallow embedding of the serverless ETL function in src/main.py.

The program is a single cloud-storage-triggered function: it loads four
spreadsheet inputs, inner-joins orders with order details, computes
per-customer and per-product aggregates, left-joins them back, builds a
time dimension from the distinct order/ship dates, writes four CSV files,
zips the CSVs, uploads the archive, and cleans up its scratch directory.

Tables are embedded as lists of typed records; the dataframe operations
(merge, groupby/agg, concat/dropna/unique/sort, strftime) are embedded as
the corresponding list operations.  The effectful skeleton (loader loop,
try/except/finally, zip, upload, cleanup) is embedded as a deterministic
function from an environment of external outcomes to an event trace.
-/

/-- Calendar date as parsed by pandas to_datetime, compared chronologically. -/
structure Date where
  year : Nat
  month : Nat
  day : Nat
deriving DecidableEq, Repr, Inhabited

/-- Chronological (lexicographic) order on dates. -/
def Date.le (a b : Date) : Prop :=
  a.year < b.year ∨ (a.year = b.year ∧ (a.month < b.month ∨ (a.month = b.month ∧ a.day ≤ b.day)))

instance : DecidableRel Date.le := by
  intro a b
  unfold Date.le
  infer_instance

instance : IsTotal Date Date.le := by
  constructor
  intro a b
  unfold Date.le
  omega

instance : IsTrans Date Date.le := by
  constructor
  intro a b c
  unfold Date.le
  omega

instance : IsAntisymm Date Date.le := by
  constructor
  intro a b h1 h2
  unfold Date.le at h1 h2
  have : a.year = b.year ∧ a.month = b.month ∧ a.day = b.day := by omega
  cases a
  cases b
  simp_all

/-- Zero-pad a natural to two digits, as strftime does for month and day. -/
def pad2 (n : Nat) : String :=
  (if n < 10 then "0" else "") ++ toString n

/-- Zero-pad a natural to four digits, as strftime does for the year. -/
def pad4 (n : Nat) : String :=
  (if n < 10 then "000" else if n < 100 then "00" else if n < 1000 then "0" else "") ++ toString n

/-- TimeID format of main.py line 89: strftime of a date with pattern Y m d,
zero-padded, no separators. -/
def dateTimeID (d : Date) : String :=
  pad4 d.year ++ pad2 d.month ++ pad2 d.day

/-- Full weekday name of a Gregorian date via the Zeller congruence;
matches pandas day_name at main.py line 93 (for example Monday). -/
def weekdayName (d : Date) : String :=
  let m := if d.month < 3 then d.month + 12 else d.month
  let y := if d.month < 3 then d.year - 1 else d.year
  let k := y % 100
  let j := y / 100
  let h := (d.day + (13 * (m + 1)) / 5 + k + k / 4 + j / 4 + 5 * j) % 7
  ["Saturday", "Sunday", "Monday", "Tuesday", "Wednesday", "Thursday", "Friday"].getD h ""

/-- Row of orders.xlsx: OrderID, CustomerID, OrderDate, ShipDate
(dates may be missing, hence Option). -/
structure OrderRow where
  orderID : Nat
  customerID : Nat
  orderDate : Option Date
  shipDate : Option Date
deriving DecidableEq, Repr

/-- Row of order_details.xlsx: OrderID, ProductID, Quantity, Discount. -/
structure DetailRow where
  orderID : Nat
  productID : Nat
  quantity : Int
  discount : Rat
deriving DecidableEq, Repr

/-- Row of the joined table of main.py line 50 (orders merged with details). -/
structure MergedRow where
  orderID : Nat
  customerID : Nat
  productID : Nat
  orderDate : Option Date
  shipDate : Option Date
  quantity : Int
  discount : Rat
deriving DecidableEq, Repr

/-- Combine an order row with a matching detail row into a joined row. -/
def mkMerged (o : OrderRow) (d : DetailRow) : MergedRow :=
  ⟨o.orderID, o.customerID, d.productID, o.orderDate, o.shipDate, d.quantity, d.discount⟩

/-- Embedding of main.py line 50: merged_df = orders_df.merge(order_details_df,
on OrderID, how inner).  For each left row, in order, emit one output row per
matching right row. -/
def merge_inner (orders : List OrderRow) (details : List DetailRow) : List MergedRow :=
  orders.flatMap fun o => (details.filter fun d => d.orderID == o.orderID).map (mkMerged o)

theorem merge_inner_length (orders : List OrderRow) (details : List DetailRow) :
    (merge_inner orders details).length
      = ((orders.product details).filter fun p => p.1.orderID == p.2.orderID).length := by
  induction orders with
  | nil => rfl
  | cons o os ih =>
    simp only [merge_inner, List.product, List.flatMap_cons, List.length_append,
      List.length_map, List.filter_append, List.filter_map] at *
    rw [ih]
    congr 1
    simp only [← List.countP_eq_length_filter, List.countP_map]
    apply List.countP_congr
    intro d _
    simp only [Function.comp_apply]
    by_cases h : d.orderID = o.orderID
    · simp [h]
    · simp [h, Ne.symm h]

/-- Output row of the customer aggregate of main.py lines 53-57: group the
joined table by CustomerID, count OrderID, mean of Discount. -/
structure CustAgg where
  customerID : Nat
  customerOrderCount : Nat
  customerMeanDiscount : Rat
deriving DecidableEq, Repr

/-- Output row of the product aggregate of main.py lines 59-63: group the
joined table by ProductID, count OrderID, sum of Quantity. -/
structure ProdAgg where
  productID : Nat
  productOrderCount : Nat
  productTotalQuantity : Int
deriving DecidableEq, Repr

/-- Distinct group keys in ascending order, as pandas groupby produces them. -/
def groupKeys (keyOf : MergedRow → Nat) (m : List MergedRow) : List Nat :=
  List.insertionSort (· ≤ ·) (m.map keyOf).dedup

/-- Aggregate row computed for one CustomerID group: the group size (count of
the non-null OrderID column) and the arithmetic mean of Discount. -/
def custAggFor (m : List MergedRow) (c : Nat) : CustAgg :=
  let g := m.filter fun r => r.customerID == c
  ⟨c, g.length, (g.map (·.discount)).sum / (g.length : Rat)⟩

/-- Aggregate row computed for one ProductID group: the group size and the
total Quantity. -/
def prodAggFor (m : List MergedRow) (p : Nat) : ProdAgg :=
  let g := m.filter fun r => r.productID == p
  ⟨p, g.length, (g.map (·.quantity)).sum⟩

/-- Embedding of main.py lines 53-57: one aggregate row per distinct CustomerID. -/
def customer_agg (m : List MergedRow) : List CustAgg :=
  (groupKeys (·.customerID) m).map (custAggFor m)

/-- Embedding of main.py lines 59-63: one aggregate row per distinct ProductID. -/
def product_agg (m : List MergedRow) : List ProdAgg :=
  (groupKeys (·.productID) m).map (prodAggFor m)

/-- Embedding of the left merge at main.py line 66: every left row is kept;
it is paired with each matching aggregate row, or with null when none matches. -/
def leftJoinCustomer (rows : List MergedRow) (agg : List CustAgg) :
    List (MergedRow × Option CustAgg) :=
  rows.flatMap fun r =>
    match agg.filter fun a => a.customerID == r.customerID with
    | [] => [(r, none)]
    | ms => ms.map fun a => (r, some a)

/-- Embedding of the left merge at main.py line 67, on ProductID. -/
def leftJoinProduct (rows : List (MergedRow × Option CustAgg)) (agg : List ProdAgg) :
    List ((MergedRow × Option CustAgg) × Option ProdAgg) :=
  rows.flatMap fun r =>
    match agg.filter fun a => a.productID == r.1.productID with
    | [] => [(r, none)]
    | ms => ms.map fun a => (r, some a)

/-- The enriched joined table of main.py lines 66-67. -/
def merged_with_aggregates (orders : List OrderRow) (details : List DetailRow) :
    List ((MergedRow × Option CustAgg) × Option ProdAgg) :=
  leftJoinProduct
    (leftJoinCustomer (merge_inner orders details) (customer_agg (merge_inner orders details)))
    (product_agg (merge_inner orders details))

/-- Row of the Order Fact table of main.py lines 70-82: the nine projected
columns.  Aggregate columns are optional because a left join fills unmatched
rows with null. -/
structure FactRow where
  orderID : Nat
  customerID : Nat
  productID : Nat
  orderDate : Option Date
  shipDate : Option Date
  customerOrderCount : Option Nat
  customerMeanDiscount : Option Rat
  productOrderCount : Option Nat
  productTotalQuantity : Option Int
deriving DecidableEq, Repr, Inhabited

/-- Projection of an enriched row onto the nine Order Fact columns. -/
def projectFact (r : (MergedRow × Option CustAgg) × Option ProdAgg) : FactRow :=
  ⟨r.1.1.orderID, r.1.1.customerID, r.1.1.productID, r.1.1.orderDate, r.1.1.shipDate,
   r.1.2.map (·.customerOrderCount), r.1.2.map (·.customerMeanDiscount),
   r.2.map (·.productOrderCount), r.2.map (·.productTotalQuantity)⟩

/-- The Order Fact table of main.py lines 70-82. -/
def order_fact_table (orders : List OrderRow) (details : List DetailRow) : List FactRow :=
  (merged_with_aggregates orders details).map projectFact

theorem groupKeys_nodup (keyOf : MergedRow → Nat) (m : List MergedRow) :
    (groupKeys keyOf m).Nodup :=
  (List.perm_insertionSort _ _).nodup_iff.mpr (List.nodup_dedup _)

theorem mem_groupKeys (keyOf : MergedRow → Nat) (m : List MergedRow) (c : Nat) :
    c ∈ groupKeys keyOf m ↔ c ∈ m.map keyOf := by
  unfold groupKeys
  rw [(List.perm_insertionSort _ _).mem_iff, List.mem_dedup]

theorem filter_map_eq_single {α : Type} {l : List Nat} (hn : l.Nodup) (f : Nat → α)
    (key : α → Nat) (hk : ∀ x, key (f x) = x) {c : Nat} (hc : c ∈ l) :
    (l.map f).filter (fun a => key a == c) = [f c] := by
  induction l with
  | nil => cases hc
  | cons x xs ih =>
    rw [List.map_cons, List.filter_cons]
    rcases List.mem_cons.mp hc with h | h
    · subst h
      have hrest : (xs.map f).filter (fun a => key a == c) = [] := by
        rw [List.filter_eq_nil_iff]
        intro a ha
        rcases List.mem_map.mp ha with ⟨y, hy, rfl⟩
        have : y ≠ c := fun hyc => (List.nodup_cons.mp hn).1 (hyc ▸ hy)
        simp [hk, this]
      simp [hk, hrest]
    · have hx : x ≠ c := fun hxc => (List.nodup_cons.mp hn).1 (hxc ▸ h)
      have := ih (List.nodup_cons.mp hn).2 h
      simp [hk, hx, this]

theorem customer_agg_filter (m : List MergedRow) {c : Nat}
    (hc : c ∈ m.map (·.customerID)) :
    (customer_agg m).filter (fun a => a.customerID == c) = [custAggFor m c] :=
  filter_map_eq_single (groupKeys_nodup (·.customerID) m) (custAggFor m)
    CustAgg.customerID (fun _ => rfl) ((mem_groupKeys _ _ _).mpr hc)

theorem product_agg_filter (m : List MergedRow) {p : Nat}
    (hp : p ∈ m.map (·.productID)) :
    (product_agg m).filter (fun a => a.productID == p) = [prodAggFor m p] :=
  filter_map_eq_single (groupKeys_nodup (·.productID) m) (prodAggFor m)
    ProdAgg.productID (fun _ => rfl) ((mem_groupKeys _ _ _).mpr hp)

theorem leftJoinCustomer_eq_map (rows : List MergedRow) (agg : List CustAgg)
    (single : MergedRow → CustAgg)
    (h : ∀ r ∈ rows, agg.filter (fun x => x.customerID == r.customerID) = [single r]) :
    leftJoinCustomer rows agg = rows.map fun r => (r, some (single r)) := by
  induction rows with
  | nil => rfl
  | cons r rs ih =>
    have ha := h r (by simp)
    simp only [leftJoinCustomer, List.flatMap_cons, List.map_cons] at *
    rw [ha]
    rw [ih fun x hx => h x (List.mem_cons_of_mem _ hx)]
    rfl

theorem leftJoinProduct_eq_map (rows : List (MergedRow × Option CustAgg))
    (agg : List ProdAgg) (single : MergedRow × Option CustAgg → ProdAgg)
    (h : ∀ r ∈ rows, agg.filter (fun x => x.productID == r.1.productID) = [single r]) :
    leftJoinProduct rows agg = rows.map fun r => (r, some (single r)) := by
  induction rows with
  | nil => rfl
  | cons r rs ih =>
    have ha := h r (by simp)
    simp only [leftJoinProduct, List.flatMap_cons, List.map_cons] at *
    rw [ha]
    rw [ih fun x hx => h x (List.mem_cons_of_mem _ hx)]
    rfl

/-- Normal form of the enriched joined table: every joined row survives both
left merges unchanged, paired with exactly its customer and product aggregates. -/
theorem merged_with_aggregates_eq (orders : List OrderRow) (details : List DetailRow) :
    merged_with_aggregates orders details
      = (merge_inner orders details).map fun r =>
          ((r, some (custAggFor (merge_inner orders details) r.customerID)),
           some (prodAggFor (merge_inner orders details) r.productID)) := by
  set m := merge_inner orders details with hm
  have h1 : leftJoinCustomer m (customer_agg m)
      = m.map fun r => (r, some (custAggFor m r.customerID)) := by
    apply leftJoinCustomer_eq_map
    intro r hr
    exact customer_agg_filter m (List.mem_map_of_mem _ hr)
  have h2 : leftJoinProduct (m.map fun r => (r, some (custAggFor m r.customerID)))
      (product_agg m)
      = (m.map fun r => (r, some (custAggFor m r.customerID))).map
          fun r => (r, some (prodAggFor m r.1.productID)) := by
    apply leftJoinProduct_eq_map
    intro r hr
    rcases List.mem_map.mp hr with ⟨x, hx, rfl⟩
    exact product_agg_filter m (List.mem_map_of_mem _ hx)
  unfold merged_with_aggregates
  rw [← hm, h1, h2, List.map_map]
  rfl

/-- Membership characterization of the inner join at main.py line 50. -/
theorem mem_merge_inner (orders : List OrderRow) (details : List DetailRow)
    (x : MergedRow) :
    x ∈ merge_inner orders details
      ↔ ∃ o ∈ orders, ∃ d ∈ details, o.orderID = d.orderID ∧ x = mkMerged o d := by
  simp only [merge_inner, List.mem_flatMap, List.mem_map, List.mem_filter, beq_iff_eq]
  constructor
  · rintro ⟨o, ho, d, ⟨hd, hkey⟩, rfl⟩
    exact ⟨o, ho, d, hd, hkey.symm, rfl⟩
  · rintro ⟨o, ho, d, hd, hkey, rfl⟩
    exact ⟨o, ho, d, ⟨hd, hkey.symm⟩, rfl⟩

/-- Embedding of main.py lines 84-86: concatenate the OrderDate and ShipDate
columns, drop missing values, deduplicate, sort ascending. -/
def unique_dates (orders : List OrderRow) : List Date :=
  List.insertionSort Date.le
    ((orders.map (·.orderDate)).reduceOption ++ (orders.map (·.shipDate)).reduceOption).dedup

/-- Row of the Time Dimension table of main.py lines 88-93. -/
structure TimeDimRow where
  date : Date
  timeID : String
  year : Nat
  month : Nat
  day : Nat
  weekDay : String
deriving DecidableEq, Repr, Inhabited

/-- Embedding of main.py lines 88-93: one row per unique date, with TimeID,
Year, Month, Day and WeekDay derived from the Date column. -/
def time_dim (orders : List OrderRow) : List TimeDimRow :=
  (unique_dates orders).map fun d =>
    ⟨d, dateTimeID d, d.year, d.month, d.day, weekdayName d⟩

theorem unique_dates_sorted (orders : List OrderRow) :
    (unique_dates orders).Sorted Date.le :=
  List.sorted_insertionSort Date.le _

theorem unique_dates_nodup (orders : List OrderRow) :
    (unique_dates orders).Nodup :=
  (List.perm_insertionSort _ _).nodup_iff.mpr (List.nodup_dedup _)

theorem mem_unique_dates (orders : List OrderRow) (d : Date) :
    d ∈ unique_dates orders
      ↔ ∃ o ∈ orders, o.orderDate = some d ∨ o.shipDate = some d := by
  unfold unique_dates
  rw [(List.perm_insertionSort _ _).mem_iff, List.mem_dedup, List.mem_append]
  simp only [List.reduceOption_mem_iff, List.mem_map]
  constructor
  · rintro (⟨o, ho, h⟩ | ⟨o, ho, h⟩)
    · exact ⟨o, ho, Or.inl h⟩
    · exact ⟨o, ho, Or.inr h⟩
  · rintro ⟨o, ho, h | h⟩
    · exact Or.inl ⟨o, ho, h⟩
    · exact Or.inr ⟨o, ho, h⟩

/-- Normal form of the Order Fact table: one projected row per joined row,
carrying that row's key columns, dates, and its group aggregates. -/
theorem order_fact_table_eq (orders : List OrderRow) (details : List DetailRow) :
    order_fact_table orders details
      = (merge_inner orders details).map fun r =>
          ⟨r.orderID, r.customerID, r.productID, r.orderDate, r.shipDate,
           some (custAggFor (merge_inner orders details) r.customerID).customerOrderCount,
           some (custAggFor (merge_inner orders details) r.customerID).customerMeanDiscount,
           some (prodAggFor (merge_inner orders details) r.productID).productOrderCount,
           some (prodAggFor (merge_inner orders details) r.productID).productTotalQuantity⟩ := by
  unfold order_fact_table
  rw [merged_with_aggregates_eq, List.map_map]
  rfl

/-- Example orders input: three orders, two customers, one shared order date. -/
def ordersEx : List OrderRow :=
  [⟨1, 10, some ⟨2024, 3, 7⟩, some ⟨2024, 3, 9⟩⟩,
   ⟨2, 10, some ⟨2024, 3, 8⟩, none⟩,
   ⟨3, 11, some ⟨2024, 3, 7⟩, some ⟨2024, 3, 10⟩⟩]

/-- Example order-details input: two lines for order 1, one for order 2, and
one line whose OrderID 9 matches no order. -/
def detailsEx : List DetailRow :=
  [⟨1, 100, 2, 1/10⟩,
   ⟨1, 101, 1, 0⟩,
   ⟨2, 100, 5, 2/10⟩,
   ⟨9, 100, 1, 0⟩]

/-- C1: the Order Fact table has exactly one row per matching
(order, order-detail) pair of the inner join on OrderID; every output row
comes from such a pair; rows of either input with no matching OrderID on the
other side appear in no output row; duplicate OrderIDs are not deduplicated
(the count is the full matching-pair count). -/
theorem orderFact_inner_join_cardinality (orders : List OrderRow) (details : List DetailRow) :
    (order_fact_table orders details).length
        = ((orders.product details).filter fun p => p.1.orderID == p.2.orderID).length
    ∧ (∀ f ∈ order_fact_table orders details, ∃ o ∈ orders, ∃ d ∈ details,
        o.orderID = d.orderID ∧ f.orderID = o.orderID ∧ f.customerID = o.customerID
          ∧ f.productID = d.productID)
    ∧ (∀ o ∈ orders, (∀ d ∈ details, d.orderID ≠ o.orderID) →
        ∀ f ∈ order_fact_table orders details, f.orderID ≠ o.orderID)
    ∧ (∀ d ∈ details, (∀ o ∈ orders, o.orderID ≠ d.orderID) →
        ∀ f ∈ order_fact_table orders details, f.orderID ≠ d.orderID) := by
  refine ⟨?_, ?_, ?_, ?_⟩
  · rw [order_fact_table_eq, List.length_map, merge_inner_length]
  · intro f hf
    rw [order_fact_table_eq] at hf
    rcases List.mem_map.mp hf with ⟨r, hr, rfl⟩
    rcases (mem_merge_inner orders details r).mp hr with ⟨o, ho, d, hd, hkey, rfl⟩
    exact ⟨o, ho, d, hd, hkey, rfl, rfl, rfl⟩
  · intro o ho hno f hf hfo
    rw [order_fact_table_eq] at hf
    rcases List.mem_map.mp hf with ⟨r, hr, rfl⟩
    rcases (mem_merge_inner orders details r).mp hr with ⟨o2, _, d2, hd2, hkey2, rfl⟩
    exact hno d2 hd2 (by simpa [mkMerged] using hkey2.symm.trans hfo)
  · intro d hd hno f hf hfd
    rw [order_fact_table_eq] at hf
    rcases List.mem_map.mp hf with ⟨r, hr, rfl⟩
    rcases (mem_merge_inner orders details r).mp hr with ⟨o2, ho2, d2, _, hkey2, rfl⟩
    exact hno o2 ho2 (by simpa [mkMerged] using hfd)

/-- Concrete check of C1: on the example inputs the fact table has 3 rows
(the three matching pairs), and the unmatched detail with OrderID 9
contributes no row. -/
theorem orderFact_inner_join_cardinality_witness :
    (order_fact_table ordersEx detailsEx).length
        = ((ordersEx.product detailsEx).filter fun p => p.1.orderID == p.2.orderID).length
    ∧ ((ordersEx.product detailsEx).filter fun p => p.1.orderID == p.2.orderID).length = 3
    ∧ (∀ f ∈ order_fact_table ordersEx detailsEx, f.orderID ≠ 9) := by
  refine ⟨(orderFact_inner_join_cardinality ordersEx detailsEx).1, by decide, ?_⟩
  intro f hf
  exact (orderFact_inner_join_cardinality ordersEx detailsEx).2.2.2 ⟨9, 100, 1, 0⟩
    (by decide) (by decide) f hf

/-- C2: on every Order Fact row, CustomerOrderCount is the number of joined
rows sharing the row's customer id and CustomerMeanDiscount is the arithmetic
mean of Discount over those rows; ProductOrderCount is the number of joined
rows sharing the row's product id and ProductTotalQuantity is the sum of
Quantity over those rows. -/
theorem fact_aggregate_values (orders : List OrderRow) (details : List DetailRow) :
    ∀ f ∈ order_fact_table orders details,
      f.customerOrderCount
          = some ((merge_inner orders details).filter fun r =>
              r.customerID == f.customerID).length
      ∧ f.customerMeanDiscount
          = some ((((merge_inner orders details).filter fun r =>
                r.customerID == f.customerID).map (·.discount)).sum
              / ((((merge_inner orders details).filter fun r =>
                r.customerID == f.customerID)).length : Rat))
      ∧ f.productOrderCount
          = some ((merge_inner orders details).filter fun r =>
              r.productID == f.productID).length
      ∧ f.productTotalQuantity
          = some ((((merge_inner orders details).filter fun r =>
              r.productID == f.productID).map (·.quantity)).sum) := by
  intro f hf
  rw [order_fact_table_eq] at hf
  rcases List.mem_map.mp hf with ⟨r, _, rfl⟩
  exact ⟨rfl, rfl, rfl, rfl⟩

/-- Concrete check of C2: the first fact row of the example belongs to
customer 10, whose three joined rows give CustomerOrderCount 3, and to
product 100, whose two joined rows have total quantity 7. -/
theorem fact_aggregate_values_witness :
    (order_fact_table ordersEx detailsEx).headI.customerOrderCount
        = some ((merge_inner ordersEx detailsEx).filter fun r =>
            r.customerID == (order_fact_table ordersEx detailsEx).headI.customerID).length
    ∧ ((merge_inner ordersEx detailsEx).filter fun r =>
        r.customerID == (order_fact_table ordersEx detailsEx).headI.customerID).length = 3
    ∧ (order_fact_table ordersEx detailsEx).headI.productTotalQuantity
        = some ((((merge_inner ordersEx detailsEx).filter fun r =>
            r.productID == (order_fact_table ordersEx detailsEx).headI.productID).map
              (·.quantity)).sum)
    ∧ ((((merge_inner ordersEx detailsEx).filter fun r =>
        r.productID == (order_fact_table ordersEx detailsEx).headI.productID).map
          (·.quantity)).sum) = 7 := by
  have hne : order_fact_table ordersEx detailsEx ≠ [] := List.length_pos.mp (by decide)
  have hmem : (order_fact_table ordersEx detailsEx).headI ∈ order_fact_table ordersEx detailsEx := by
    cases hl : order_fact_table ordersEx detailsEx with
    | nil => exact absurd hl hne
    | cons a t => simp
  have h := fact_aggregate_values ordersEx detailsEx _ hmem
  exact ⟨h.1, by decide, h.2.2.2, by decide⟩

/-- C9: left-joining the two aggregate tables back onto the joined set keeps
every joined row, in order, with its original column values unchanged, and
only attaches aggregate values; each aggregate table has exactly one row per
grouping key, the keys being exactly the distinct keys of the joined set. -/
theorem left_join_frame (orders : List OrderRow) (details : List DetailRow) :
    ((merged_with_aggregates orders details).map fun p => p.1.1) = merge_inner orders details
    ∧ (merged_with_aggregates orders details).length = (merge_inner orders details).length
    ∧ (∀ p ∈ merged_with_aggregates orders details, p.1.2.isSome ∧ p.2.isSome)
    ∧ ((customer_agg (merge_inner orders details)).map (·.customerID)).Nodup
    ∧ ((product_agg (merge_inner orders details)).map (·.productID)).Nodup
    ∧ (∀ c, c ∈ (customer_agg (merge_inner orders details)).map (·.customerID)
        ↔ c ∈ (merge_inner orders details).map (·.customerID))
    ∧ (∀ q, q ∈ (product_agg (merge_inner orders details)).map (·.productID)
        ↔ q ∈ (merge_inner orders details).map (·.productID)) := by
  have hcust : (customer_agg (merge_inner orders details)).map (·.customerID)
      = groupKeys (·.customerID) (merge_inner orders details) := by
    unfold customer_agg
    rw [List.map_map]
    exact List.map_id' _
  have hprod : (product_agg (merge_inner orders details)).map (·.productID)
      = groupKeys (·.productID) (merge_inner orders details) := by
    unfold product_agg
    rw [List.map_map]
    exact List.map_id' _
  refine ⟨?_, ?_, ?_, ?_, ?_, ?_, ?_⟩
  · rw [merged_with_aggregates_eq, List.map_map]
    exact List.map_id' _
  · rw [merged_with_aggregates_eq, List.length_map]
  · intro p hp
    rw [merged_with_aggregates_eq] at hp
    rcases List.mem_map.mp hp with ⟨r, _, rfl⟩
    exact ⟨rfl, rfl⟩
  · rw [hcust]
    exact groupKeys_nodup _ _
  · rw [hprod]
    exact groupKeys_nodup _ _
  · intro c
    rw [hcust]
    exact mem_groupKeys _ _ _
  · intro q
    rw [hprod]
    exact mem_groupKeys _ _ _

/-- Concrete check of C9: on the example inputs the enriched table projects
back to the joined table, which has 3 rows, and every row carries both
aggregates. -/
theorem left_join_frame_witness :
    ((merged_with_aggregates ordersEx detailsEx).map fun p => p.1.1)
        = merge_inner ordersEx detailsEx
    ∧ (merge_inner ordersEx detailsEx).length = 3
    ∧ (∀ p ∈ merged_with_aggregates ordersEx detailsEx, p.1.2.isSome ∧ p.2.isSome) :=
  ⟨(left_join_frame ordersEx detailsEx).1, by decide,
   fun p hp => (left_join_frame ordersEx detailsEx).2.2.1 p hp⟩

/-- C3: the Time Dimension has exactly one row per distinct non-null date in
the union of OrderDate and ShipDate, sorted ascending with no duplicates;
TimeID is the date formatted as a zero-padded YYYYMMDD string (20240307 for
2024-03-07), Year, Month and Day are the date components, and WeekDay is the
full weekday name. -/
theorem time_dimension_correct (orders : List OrderRow) :
    ((time_dim orders).map (·.date)).Sorted Date.le
    ∧ ((time_dim orders).map (·.date)).Nodup
    ∧ (∀ d : Date, d ∈ (time_dim orders).map (·.date)
        ↔ ∃ o ∈ orders, o.orderDate = some d ∨ o.shipDate = some d)
    ∧ (∀ row ∈ time_dim orders,
        row.timeID = dateTimeID row.date ∧ row.year = row.date.year
          ∧ row.month = row.date.month ∧ row.day = row.date.day
          ∧ row.weekDay = weekdayName row.date)
    ∧ dateTimeID ⟨2024, 3, 7⟩ = "20240307" := by
  have hmap : (time_dim orders).map (·.date) = unique_dates orders := by
    unfold time_dim
    rw [List.map_map]
    exact List.map_id' _
  refine ⟨?_, ?_, ?_, ?_, by decide⟩
  · rw [hmap]
    exact unique_dates_sorted orders
  · rw [hmap]
    exact unique_dates_nodup orders
  · intro d
    rw [hmap]
    exact mem_unique_dates orders d
  · intro row hrow
    rcases List.mem_map.mp hrow with ⟨d, _, rfl⟩
    exact ⟨rfl, rfl, rfl, rfl, rfl⟩

/-- Concrete check of C3: the example orders mention the dates 2024-03-07,
2024-03-08, 2024-03-09 and 2024-03-10 (one of them twice, one ShipDate
missing); the Time Dimension lists exactly these four dates in ascending
order, and the first row has TimeID 20240307 and WeekDay Thursday. -/
theorem time_dimension_correct_witness :
    (time_dim ordersEx).map (·.date)
        = [⟨2024, 3, 7⟩, ⟨2024, 3, 8⟩, ⟨2024, 3, 9⟩, ⟨2024, 3, 10⟩]
    ∧ (⟨2024, 3, 7⟩ : Date) ∈ (time_dim ordersEx).map (·.date)
    ∧ (time_dim ordersEx).map (·.timeID)
        = ["20240307", "20240308", "20240309", "20240310"]
    ∧ (time_dim ordersEx).map (·.weekDay)
        = ["Thursday", "Friday", "Saturday", "Sunday"] := by
  refine ⟨by decide, ?_, by decide, by decide⟩
  exact (time_dimension_correct ordersEx).2.2.1 ⟨2024, 3, 7⟩ |>.mpr
    ⟨⟨1, 10, some ⟨2024, 3, 7⟩, some ⟨2024, 3, 9⟩⟩, by decide, Or.inl rfl⟩

/-- Observable events of one invocation: log lines, parses, CSV writes, zip
creation, upload, and cleanup actions. -/
inductive Ev
  | logProcessing (objectName bucketName : String)
  | parse (file : String)
  | saveCSV (table : String)
  | logSaved (table : String)
  | createZip (entries : List String)
  | logCreatedZip
  | upload (blobName : String)
  | logSuccess
  | logError (msg : String)
  | removeFile (f : String)
  | removeDir
  | logCleaned
  | logCleanupError
deriving DecidableEq, Repr

/-- Exceptions the body of hello_gcs can raise. -/
inductive Err
  | fileNotFound (file : String)
  | parseFailure (file : String)
  | uploadFailure
  | nameNotDefined (n : String)
deriving DecidableEq, Repr

/-- Message printed by the top-level handler at main.py line 129 for each
exception (the FileNotFoundError text of line 38 names the missing object). -/
def errMsg : Err → String
  | .fileNotFound f => "File " ++ f ++ " not found in bucket."
  | .parseFailure f => "could not parse " ++ f
  | .uploadFailure => "upload failed"
  | .nameNotDefined n => "name " ++ n ++ " is not defined"

/-- External outcomes one invocation depends on: the triggering event fields,
the set of objects present in the bucket, and whether each parse, the upload
and the scratch-directory removal succeed. -/
structure Env where
  eventBucket : String
  eventName : String
  present : List String
  parseOk : String → Bool
  uploadOk : Bool
  cleanupOk : Bool

/-- The required input objects of main.py lines 22-27, in their fixed order. -/
def file_paths : List String :=
  ["customers.xlsx", "products.xlsx", "orders.xlsx", "order_details.xlsx"]

/-- The four output table names of main.py lines 96-101, in their fixed order. -/
def outputTables : List String :=
  ["Customer_Dimension", "Product_Dimension", "Order_Fact", "Time_Dimension"]

/-- The four CSV file names written into the scratch directory. -/
def csvNames : List String := outputTables.map fun t => t ++ ".csv"

/-- Embedding of the str.endswith csv check at main.py line 116. -/
def endsWithCsv (s : String) : Bool := ".csv".data.isSuffixOf s.data

/-- Embedding of main.py lines 114-117: the zip members are the scratch
directory entries whose name ends in csv. -/
def zipEntries (listing : List String) : List String := listing.filter endsWithCsv

/-- Names resolvable at main.py line 126: the module-level imports and every
local assigned earlier in hello_gcs.  bucket_name is not among them. -/
def definedNames : List String :=
  ["os", "zipfile", "storage", "pd", "functions_framework",
   "temp_dir", "data", "event_id", "event_type", "bucket", "name",
   "file_paths", "storage_client", "dataframes", "file", "blob",
   "customers_df", "products_df", "orders_df", "order_details_df",
   "merged_df", "customer_agg", "product_agg", "merged_with_aggregates",
   "order_fact_table", "unique_dates", "time_dim", "output_files",
   "table_name", "df", "output_path", "zip_file_path", "zipf",
   "file_name", "file_path", "output_blob_name", "output_blob"]

/-- Embedding of the loader loop at main.py lines 35-40: each file in order is
checked for existence and, if present, downloaded and parsed at once; the
first missing file raises FileNotFoundError, a failing parse raises there. -/
def loadFiles (env : Env) : List String → List Ev × Option Err
  | [] => ([], none)
  | f :: fs =>
    if f ∈ env.present then
      if env.parseOk f then
        let r := loadFiles env fs
        (Ev.parse f :: r.1, r.2)
      else ([], some (Err.parseFailure f))
    else ([], some (Err.fileNotFound f))

/-- Result of the try block: its event trace, the exception it raised if any,
and the scratch directory contents (none while the directory does not exist). -/
structure BodyResult where
  trace : List Ev
  err : Option Err
  scratch : Option (List String)

/-- Embedding of the try block of main.py lines 11-126: log the trigger, load
the four inputs, transform (pure, lines 42-93), write the four CSVs, create
the zip whose members are the csv-suffixed scratch entries, upload it, then
reach the final print whose name bucket_name is undefined. -/
def tryBody (env : Env) : BodyResult :=
  let procLog := [Ev.logProcessing env.eventName env.eventBucket]
  let load := loadFiles env file_paths
  match load.2 with
  | some e => ⟨procLog ++ load.1, some e, none⟩
  | none =>
    let saveEvs := outputTables.flatMap fun t => [Ev.saveCSV t, Ev.logSaved t]
    let scratchNow := csvNames ++ ["etl_output.zip"]
    let zipEvs := [Ev.createZip (zipEntries scratchNow), Ev.logCreatedZip]
    if env.uploadOk then
      if "bucket_name" ∈ definedNames then
        ⟨procLog ++ load.1 ++ saveEvs ++ zipEvs ++ [Ev.upload "etl_output.zip", Ev.logSuccess],
         none, some scratchNow⟩
      else
        ⟨procLog ++ load.1 ++ saveEvs ++ zipEvs ++ [Ev.upload "etl_output.zip"],
         some (Err.nameNotDefined "bucket_name"), some scratchNow⟩
    else
      ⟨procLog ++ load.1 ++ saveEvs ++ zipEvs, some Err.uploadFailure, some scratchNow⟩

/-- Embedding of the finally block of main.py lines 131-140: if the scratch
directory exists remove every file then the directory, then log; any failure
in that inner block is caught and only logged. -/
def cleanupRun (env : Env) (scratch : Option (List String)) :
    List Ev × Option (List String) :=
  match scratch with
  | none => ([Ev.logCleaned], none)
  | some files =>
    if env.cleanupOk then
      (files.map Ev.removeFile ++ [Ev.removeDir, Ev.logCleaned], none)
    else
      ([Ev.logCleanupError], some files)

/-- How one invocation ends: returning normally, or propagating an exception
to the hosting platform. -/
inductive RunOutcome
  | finishedNormally
  | raised (e : Err)
deriving DecidableEq, Repr

/-- Result of one whole invocation. -/
structure RunResult where
  outcome : RunOutcome
  trace : List Ev
  scratch : Option (List String)

/-- Embedding of hello_gcs: run the try block; the except clause at lines
128-129 logs any exception and falls through; the finally clause always runs
the cleanup; the function then returns normally. -/
def hello_gcs (env : Env) : RunResult :=
  ⟨RunOutcome.finishedNormally,
   (match (tryBody env).err with
    | some e => (tryBody env).trace ++ [Ev.logError (errMsg e)]
    | none => (tryBody env).trace) ++ (cleanupRun env (tryBody env).scratch).1,
   (cleanupRun env (tryBody env).scratch).2⟩

theorem loadFiles_all_ok (env : Env) (l : List String)
    (hpres : ∀ f ∈ l, f ∈ env.present) (hp : ∀ f ∈ l, env.parseOk f = true) :
    loadFiles env l = (l.map Ev.parse, none) := by
  induction l with
  | nil => rfl
  | cons f fs ih =>
    have h1 : f ∈ env.present := hpres f (List.mem_cons_self f fs)
    have h2 : env.parseOk f = true := hp f (List.mem_cons_self f fs)
    have ih2 := ih (fun g hg => hpres g (List.mem_cons_of_mem _ hg))
      (fun g hg => hp g (List.mem_cons_of_mem _ hg))
    simp [loadFiles, h1, h2, ih2]

theorem loadFiles_first_missing (env : Env) (l : List String)
    (hp : ∀ f, env.parseOk f = true) (hmiss : ∃ f ∈ l, f ∉ env.present) :
    ∃ pre post f, l = pre ++ f :: post ∧ f ∉ env.present
      ∧ (∀ g ∈ pre, g ∈ env.present)
      ∧ loadFiles env l = (pre.map Ev.parse, some (Err.fileNotFound f)) := by
  induction l with
  | nil => simp at hmiss
  | cons a as ih =>
    by_cases ha : a ∈ env.present
    · have hmiss2 : ∃ f ∈ as, f ∉ env.present := by
        rcases hmiss with ⟨f, hf, hfn⟩
        rcases List.mem_cons.mp hf with rfl | h
        · exact absurd ha hfn
        · exact ⟨f, h, hfn⟩
      rcases ih hmiss2 with ⟨pre, post, f, heq, hfn, hpre, hload⟩
      refine ⟨a :: pre, post, f, by rw [heq]; rfl, hfn, ?_, ?_⟩
      · intro g hg
        rcases List.mem_cons.mp hg with rfl | h
        · exact ha
        · exact hpre g h
      · simp [loadFiles, ha, hp a, hload]
    · exact ⟨[], as, a, rfl, ha, by simp, by simp [loadFiles, ha]⟩

/-- Trace of the try block on a fully successful run, up to the point where
the undefined bucket_name is evaluated. -/
def okBodyTrace (env : Env) : List Ev :=
  Ev.logProcessing env.eventName env.eventBucket :: file_paths.map Ev.parse
    ++ (outputTables.flatMap fun t => [Ev.saveCSV t, Ev.logSaved t])
    ++ [Ev.createZip (zipEntries (csvNames ++ ["etl_output.zip"])), Ev.logCreatedZip,
        Ev.upload "etl_output.zip"]

theorem tryBody_all_ok (env : Env)
    (hpres : ∀ f ∈ file_paths, f ∈ env.present)
    (hp : ∀ f, env.parseOk f = true)
    (hup : env.uploadOk = true) :
    tryBody env = ⟨okBodyTrace env, some (Err.nameNotDefined "bucket_name"),
      some (csvNames ++ ["etl_output.zip"])⟩ := by
  have hload := loadFiles_all_ok env file_paths hpres (fun f _ => hp f)
  have hname : "bucket_name" ∉ definedNames := by decide
  unfold tryBody
  rw [hload]
  simp only [hup, if_true, if_neg hname, okBodyTrace]
  simp [List.append_assoc]

/-- Environment of a run in which everything external succeeds. -/
def envAllOk : Env :=
  ⟨"trigger-bucket", "orders.xlsx", file_paths, fun _ => true, true, true⟩

/-- Environment in which every input parse fails. -/
def envParseFail : Env :=
  ⟨"trigger-bucket", "customers.xlsx", file_paths, fun _ => false, true, true⟩

/-- Environment in which products.xlsx is absent from the bucket. -/
def envMissingProducts : Env :=
  ⟨"trigger-bucket", "orders.xlsx",
   ["customers.xlsx", "orders.xlsx", "order_details.xlsx"], fun _ => true, true, true⟩

/-- Environment in which the scratch-directory removal fails. -/
def envCleanupFail : Env :=
  ⟨"trigger-bucket", "orders.xlsx", file_paths, fun _ => true, true, false⟩

/-- C5: every error raised anywhere in loading, transforming or sinking is
caught once at the top level, logged and suppressed: the invocation finishes
normally for every environment, and whenever the body raised an error the
handler logged it. -/
theorem top_level_error_suppression (env : Env) :
    (hello_gcs env).outcome = RunOutcome.finishedNormally
    ∧ (∀ e, (tryBody env).err = some e →
        Ev.logError (errMsg e) ∈ (hello_gcs env).trace) := by
  constructor
  · rfl
  · intro e he
    show Ev.logError (errMsg e) ∈ (hello_gcs env).trace
    unfold hello_gcs
    rw [he]
    simp

/-- Concrete check of C5: when every parse fails, the invocation still
finishes normally and the parse error is logged. -/
theorem top_level_error_suppression_witness :
    (hello_gcs envParseFail).outcome = RunOutcome.finishedNormally
    ∧ Ev.logError (errMsg (Err.parseFailure "customers.xlsx"))
        ∈ (hello_gcs envParseFail).trace :=
  ⟨(top_level_error_suppression envParseFail).1,
   (top_level_error_suppression envParseFail).2 _ (by decide)⟩

/-- C10: when loading, transforming, zipping and uploading all succeed, the
invocation still ends in the top-level handler rather than the success path:
line 126 references bucket_name, which is not a defined name, so after the
upload completed a NameError is raised and the success message is never
printed. -/
theorem success_log_never_printed (env : Env)
    (hpres : ∀ f ∈ file_paths, f ∈ env.present)
    (hp : ∀ f, env.parseOk f = true)
    (hup : env.uploadOk = true) :
    (tryBody env).err = some (Err.nameNotDefined "bucket_name")
    ∧ Ev.upload "etl_output.zip" ∈ (tryBody env).trace
    ∧ Ev.logSuccess ∉ (hello_gcs env).trace
    ∧ Ev.logError (errMsg (Err.nameNotDefined "bucket_name")) ∈ (hello_gcs env).trace
    ∧ "bucket_name" ∉ definedNames := by
  have hb := tryBody_all_ok env hpres hp hup
  refine ⟨by rw [hb], by rw [hb]; simp [okBodyTrace], ?_, ?_, by decide⟩
  · unfold hello_gcs
    rw [hb]
    simp only []
    intro hmem
    rcases List.mem_append.mp hmem with h | h
    · rcases List.mem_append.mp h with h2 | h2
      · simp [okBodyTrace] at h2
      · simp at h2
    · unfold cleanupRun at h
      by_cases hc : env.cleanupOk
      · simp [hc] at h
      · simp [hc] at h
  · unfold hello_gcs
    rw [hb]
    simp

/-- C4 counterexample: with products.xlsx absent but customers.xlsx present,
the loader has already parsed customers.xlsx when it raises the
FileNotFoundError for products.xlsx, so the error is not raised before
attempting to parse any input. -/
theorem loader_fail_fast_counterexample :
    (tryBody envMissingProducts).err = some (Err.fileNotFound "products.xlsx")
    ∧ Ev.parse "customers.xlsx" ∈ (tryBody envMissingProducts).trace := by decide

/-- C4 amended: when a required object is missing (and the present inputs are
parseable), the loader raises FileNotFoundError naming the first missing
object in the fixed input order, before parsing that object or any later
one — the objects earlier in the order have already been parsed — and the
run produces no output: no CSV is written, no zip is created, nothing is
uploaded, and the scratch state stays empty. -/
theorem loader_missing_input (env : Env)
    (hp : ∀ f, env.parseOk f = true)
    (hmiss : ∃ f ∈ file_paths, f ∉ env.present) :
    ∃ pre post f, file_paths = pre ++ f :: post
      ∧ f ∉ env.present
      ∧ (∀ g ∈ pre, g ∈ env.present)
      ∧ (tryBody env).err = some (Err.fileNotFound f)
      ∧ Ev.parse f ∉ (hello_gcs env).trace
      ∧ (∀ g, Ev.parse g ∈ (hello_gcs env).trace → g ∈ pre)
      ∧ (∀ es, Ev.createZip es ∉ (hello_gcs env).trace)
      ∧ (∀ b, Ev.upload b ∉ (hello_gcs env).trace)
      ∧ (∀ t, Ev.saveCSV t ∉ (hello_gcs env).trace)
      ∧ (hello_gcs env).scratch = none := by
  rcases loadFiles_first_missing env file_paths hp hmiss with
    ⟨pre, post, f, heq, hfn, hpre, hload⟩
  have hb : tryBody env
      = ⟨Ev.logProcessing env.eventName env.eventBucket :: pre.map Ev.parse,
         some (Err.fileNotFound f), none⟩ := by
    unfold tryBody
    rw [hload]
    rfl
  have htr : (hello_gcs env).trace
      = Ev.logProcessing env.eventName env.eventBucket :: pre.map Ev.parse
          ++ [Ev.logError (errMsg (Err.fileNotFound f)), Ev.logCleaned] := by
    unfold hello_gcs
    rw [hb]
    simp [cleanupRun]
  have hscr : (hello_gcs env).scratch = none := by
    unfold hello_gcs
    rw [hb]
    simp [cleanupRun]
  have hparse : ∀ g, Ev.parse g ∈ (hello_gcs env).trace → g ∈ pre := by
    intro g hg
    rw [htr] at hg
    simp only [List.cons_append, List.mem_cons, List.mem_append, List.mem_map] at hg
    rcases hg with h | h | h
    · cases h
    · rcases h with ⟨x, hx, h2⟩
      cases h2
      exact hx
    · simp at h
  refine ⟨pre, post, f, heq, hfn, hpre, by rw [hb], ?_, hparse, ?_, ?_, ?_, hscr⟩
  · intro hmem
    exact hfn (hpre f (hparse f hmem))
  · intro es hmem
    rw [htr] at hmem
    simp at hmem
  · intro b hmem
    rw [htr] at hmem
    simp at hmem
  · intro t hmem
    rw [htr] at hmem
    simp at hmem

/-- Concrete check of C4 (amended): in the environment missing products.xlsx
the loader raises FileNotFoundError for products.xlsx, no upload happens and
the scratch state stays empty. -/
theorem loader_missing_input_witness :
    ∃ pre post f, file_paths = pre ++ f :: post
      ∧ f ∉ envMissingProducts.present
      ∧ (tryBody envMissingProducts).err = some (Err.fileNotFound f)
      ∧ (∀ b, Ev.upload b ∉ (hello_gcs envMissingProducts).trace)
      ∧ (hello_gcs envMissingProducts).scratch = none := by
  rcases loader_missing_input envMissingProducts (fun f => rfl) (by decide) with
    ⟨pre, post, f, h1, h2, h3, h4, h5, h6, h7, h8, h9, h10⟩
  exact ⟨pre, post, f, h1, h2, h4, h8, h10⟩


theorem okBodyTrace_explicit (env : Env) :
    okBodyTrace env
      = [Ev.logProcessing env.eventName env.eventBucket,
         Ev.parse "customers.xlsx", Ev.parse "products.xlsx",
         Ev.parse "orders.xlsx", Ev.parse "order_details.xlsx",
         Ev.saveCSV "Customer_Dimension", Ev.logSaved "Customer_Dimension",
         Ev.saveCSV "Product_Dimension", Ev.logSaved "Product_Dimension",
         Ev.saveCSV "Order_Fact", Ev.logSaved "Order_Fact",
         Ev.saveCSV "Time_Dimension", Ev.logSaved "Time_Dimension",
         Ev.createZip csvNames, Ev.logCreatedZip, Ev.upload "etl_output.zip"] := by
  have hz : zipEntries (csvNames ++ ["etl_output.zip"]) = csvNames := by decide
  simp [okBodyTrace, file_paths, outputTables, hz]

/-- C7: on every successful archive run the zip is created with exactly the
four entries Customer_Dimension.csv, Product_Dimension.csv, Order_Fact.csv
and Time_Dimension.csv — the non-csv scratch contents, in particular the zip
file itself, are excluded — and the archive is uploaded to the triggering
bucket under the fixed name etl_output.zip.  In general, filtering a scratch
listing holding the four CSVs, the zip file and arbitrary non-csv extras
keeps exactly the four CSV names. -/
theorem archive_zip_contents (env : Env)
    (hpres : ∀ f ∈ file_paths, f ∈ env.present)
    (hp : ∀ f, env.parseOk f = true)
    (hup : env.uploadOk = true) :
    Ev.createZip csvNames ∈ (hello_gcs env).trace
    ∧ (∀ es, Ev.createZip es ∈ (hello_gcs env).trace →
        es = csvNames ∧ es.length = 4 ∧ "etl_output.zip" ∉ es)
    ∧ Ev.upload "etl_output.zip" ∈ (hello_gcs env).trace
    ∧ (∀ listing extra, listing.Perm (csvNames ++ "etl_output.zip" :: extra) →
        (∀ x ∈ extra, endsWithCsv x = false) →
        (zipEntries listing).Perm csvNames) := by
  have hb := tryBody_all_ok env hpres hp hup
  have htr : (hello_gcs env).trace
      = okBodyTrace env
          ++ [Ev.logError (errMsg (Err.nameNotDefined "bucket_name"))]
          ++ (cleanupRun env (some (csvNames ++ ["etl_output.zip"]))).1 := by
    unfold hello_gcs
    rw [hb]
  refine ⟨?_, ?_, ?_, ?_⟩
  · rw [htr, okBodyTrace_explicit]
    simp
  · intro es hmem
    rw [htr, okBodyTrace_explicit] at hmem
    unfold cleanupRun at hmem
    have hes : es = csvNames := by
      by_cases hc : env.cleanupOk
      · simp [hc] at hmem
        exact hmem
      · simp [hc] at hmem
        exact hmem
    refine ⟨hes, ?_, ?_⟩
    · rw [hes]
      decide
    · rw [hes]
      decide
  · rw [htr, okBodyTrace_explicit]
    simp
  · intro listing extra hperm hextra
    have h1 := hperm.filter endsWithCsv
    have h2 : endsWithCsv "etl_output.zip" = false := by decide
    have h3 : csvNames.filter endsWithCsv = csvNames := by decide
    have h4 : extra.filter endsWithCsv = [] := by
      rw [List.filter_eq_nil_iff]
      intro x hx
      simp [hextra x hx]
    rw [List.filter_append, List.filter_cons, h2, h3, h4] at h1
    simpa [zipEntries] using h1

/-- Concrete check of C7: in the all-success environment the zip creation
event carries exactly the four CSV names, the upload uses the fixed archive
name, and filtering a shuffled scratch listing with a stray non-csv file
keeps exactly the four CSV names. -/
theorem archive_zip_contents_witness :
    Ev.createZip csvNames ∈ (hello_gcs envAllOk).trace
    ∧ Ev.upload "etl_output.zip" ∈ (hello_gcs envAllOk).trace
    ∧ (zipEntries ["etl_output.zip", "Time_Dimension.csv", "notes.txt",
        "Order_Fact.csv", "Customer_Dimension.csv", "Product_Dimension.csv"]).Perm csvNames := by
  have h := archive_zip_contents envAllOk (by decide) (fun f => rfl) rfl
  exact ⟨h.1, h.2.2.1, h.2.2.2 _ ["notes.txt"] (by decide) (by decide)⟩


/-- C8: on every exit path of the invocation the scratch cleanup runs: the
trace always ends with the cleanup log or the cleanup-error log; a
successful cleanup removes every scratch file and then the directory; a
failing cleanup is only logged; and the invocation finishes normally in
every case. -/
theorem cleanup_on_every_path (env : Env) :
    ((∃ t, (hello_gcs env).trace = t ++ [Ev.logCleaned])
      ∨ (∃ t, (hello_gcs env).trace = t ++ [Ev.logCleanupError]))
    ∧ (env.cleanupOk = true → (hello_gcs env).scratch = none
        ∧ ∀ fs, (tryBody env).scratch = some fs →
            (∀ f ∈ fs, Ev.removeFile f ∈ (hello_gcs env).trace)
              ∧ Ev.removeDir ∈ (hello_gcs env).trace)
    ∧ (env.cleanupOk = false → ∀ fs, (tryBody env).scratch = some fs →
        Ev.logCleanupError ∈ (hello_gcs env).trace)
    ∧ (hello_gcs env).outcome = RunOutcome.finishedNormally := by
  cases hs : (tryBody env).scratch with
  | none =>
    have htr : (hello_gcs env).trace
        = (match (tryBody env).err with
           | some e => (tryBody env).trace ++ [Ev.logError (errMsg e)]
           | none => (tryBody env).trace) ++ [Ev.logCleaned] := by
      unfold hello_gcs
      rw [hs]
      rfl
    have hscr : (hello_gcs env).scratch = none := by
      unfold hello_gcs
      rw [hs]
      rfl
    refine ⟨Or.inl ⟨_, htr⟩, fun _ => ⟨hscr, ?_⟩, fun _ fs hfs => ?_, rfl⟩
    · intro fs hfs
      simp at hfs
    · simp at hfs
  | some files =>
    by_cases hc : env.cleanupOk
    · have htr : (hello_gcs env).trace
          = ((match (tryBody env).err with
              | some e => (tryBody env).trace ++ [Ev.logError (errMsg e)]
              | none => (tryBody env).trace)
             ++ files.map Ev.removeFile ++ [Ev.removeDir]) ++ [Ev.logCleaned] := by
        unfold hello_gcs
        rw [hs]
        simp [cleanupRun, hc, List.append_assoc]
      have hscr : (hello_gcs env).scratch = none := by
        unfold hello_gcs
        rw [hs]
        simp [cleanupRun, hc]
      refine ⟨Or.inl ⟨_, htr⟩, fun _ => ⟨hscr, ?_⟩, fun hcf => ?_, rfl⟩
      · intro fs hfs
        cases hfs
        constructor
        · intro f hf
          rw [htr]
          simp only [List.mem_append]
          exact Or.inl (Or.inl (Or.inr (List.mem_map_of_mem _ hf)))
        · rw [htr]
          simp
      · rw [hcf] at hc
        cases hc
    · have hcf : env.cleanupOk = false := by
        cases h : env.cleanupOk
        · rfl
        · exact absurd h hc
      have htr : (hello_gcs env).trace
          = (match (tryBody env).err with
             | some e => (tryBody env).trace ++ [Ev.logError (errMsg e)]
             | none => (tryBody env).trace) ++ [Ev.logCleanupError] := by
        unfold hello_gcs
        rw [hs]
        simp [cleanupRun, hcf]
      refine ⟨Or.inr ⟨_, htr⟩, fun hct => absurd hct hc, fun _ fs hfs => ?_, rfl⟩
      rw [htr]
      simp

/-- Concrete check of C8: with a working cleanup the scratch state ends
empty and the directory removal is in the trace; with a failing cleanup the
cleanup error is logged and the invocation still finishes normally. -/
theorem cleanup_on_every_path_witness :
    (hello_gcs envAllOk).scratch = none
    ∧ Ev.removeDir ∈ (hello_gcs envAllOk).trace
    ∧ Ev.logCleanupError ∈ (hello_gcs envCleanupFail).trace
    ∧ (hello_gcs envCleanupFail).outcome = RunOutcome.finishedNormally := by
  have h1 := (cleanup_on_every_path envAllOk).2.1 rfl
  have h2 := (cleanup_on_every_path envCleanupFail).2.2.1 rfl
    (csvNames ++ ["etl_output.zip"]) (by decide)
  exact ⟨h1.1, (h1.2 (csvNames ++ ["etl_output.zip"]) (by decide)).2, h2,
    (cleanup_on_every_path envCleanupFail).2.2.2⟩

/-- Runtime value of one output cell before to_csv, tagged with its dtype. -/
inductive PyVal
  | vStr (s : String)
  | vNat (n : Nat)
  | vDate (d : Date)
  | vNull
deriving DecidableEq, Repr

/-- Whether a cell value is a string. -/
def PyVal.isStr : PyVal → Bool
  | .vStr _ => true
  | _ => false

/-- Cell value of an optional date column: a datetime, or null when missing. -/
def optDateVal : Option Date → PyVal
  | some d => .vDate d
  | none => .vNull

/-- Column values of one Time Dimension row exactly as main.py lines 88-93
leave them before to_csv: Date is the parsed datetime, TimeID and WeekDay are
the strings built by strftime and day_name, and Year, Month, Day are the
integers from the datetime accessor; no astype conversion appears anywhere in
main.py. -/
def timeDimCells (r : TimeDimRow) : List (String × PyVal) :=
  [("Date", .vDate r.date), ("TimeID", .vStr r.timeID), ("Year", .vNat r.year),
   ("Month", .vNat r.month), ("Day", .vNat r.day), ("WeekDay", .vStr r.weekDay)]

/-- The OrderDate and ShipDate column values of one Order Fact row before
to_csv: main.py applies no conversion to them after the join. -/
def factDateCells (f : FactRow) : List (String × PyVal) :=
  [("OrderDate", optDateVal f.orderDate), ("ShipDate", optDateVal f.shipDate)]

/-- Row of customers.xlsx as far as dates are concerned: identifier and
signup date.  main.py line 97 passes customers_df through unchanged. -/
structure CustomerRow where
  customerID : Nat
  signupDate : Option Date
deriving DecidableEq, Repr

/-- The SignupDate column value of one Customer dimension row before to_csv:
main.py never touches customers_df, so the parsed value flows through. -/
def customerSignupCell (c : CustomerRow) : String × PyVal :=
  ("SignupDate", optDateVal c.signupDate)

/-- Example customers input. -/
def customersEx : List CustomerRow :=
  [⟨10, some ⟨2023, 12, 1⟩⟩, ⟨11, none⟩]

/-- C6 counterexample: on the example input the Year cell of the first Time
Dimension row holds the integer 2024 and the OrderDate cell of the first
fact row holds a datetime, so it is false that the date columns are
converted to strings and that every Time Dimension column is string-typed
before output. -/
theorem string_conversion_counterexample :
    ¬ ((∀ row ∈ time_dim ordersEx, ∀ p ∈ timeDimCells row, (Prod.snd p).isStr = true)
       ∧ (∀ f ∈ order_fact_table ordersEx detailsEx,
            ∀ p ∈ factDateCells f, (Prod.snd p).isStr = true)) := by decide

/-- C6 amended: the archive variant applies no type conversion before output:
in the Time Dimension only TimeID and WeekDay are strings (they are created
by formatting), while Date stays a datetime and Year, Month, Day stay
numeric; the OrderDate and ShipDate columns of the fact table and the
SignupDate column of the customer dimension keep their non-string parsed
values. -/
theorem string_conversion_absent (orders : List OrderRow) (details : List DetailRow)
    (customers : List CustomerRow) :
    (∀ row ∈ time_dim orders,
        (timeDimCells row).map (fun p => (p.1, (p.2).isStr))
          = [("Date", false), ("TimeID", true), ("Year", false),
             ("Month", false), ("Day", false), ("WeekDay", true)])
    ∧ (∀ f ∈ order_fact_table orders details,
        ∀ p ∈ factDateCells f, (Prod.snd p).isStr = false)
    ∧ (∀ c ∈ customers, ((customerSignupCell c).2).isStr = false) := by
  refine ⟨?_, ?_, ?_⟩
  · intro row _
    rfl
  · intro f _ p hp
    rcases List.mem_cons.mp hp with rfl | hp2
    · cases f.orderDate <;> rfl
    · rcases List.mem_cons.mp hp2 with rfl | hp3
      · cases f.shipDate <;> rfl
      · simp at hp3
  · intro c _
    cases hsd : c.signupDate <;> simp [customerSignupCell, optDateVal, hsd, PyVal.isStr]

/-- Concrete check of C6 (amended): on the example inputs the first Time
Dimension row has a non-string Year cell and string TimeID cell, and the
signup date cell of the first customer is not a string. -/
theorem string_conversion_absent_witness :
    ((timeDimCells (time_dim ordersEx).headI).map (fun p => (p.1, (p.2).isStr))
        = [("Date", false), ("TimeID", true), ("Year", false),
           ("Month", false), ("Day", false), ("WeekDay", true)])
    ∧ ((customerSignupCell ⟨10, some ⟨2023, 12, 1⟩⟩).2).isStr = false := by
  constructor
  · have hne : time_dim ordersEx ≠ [] := List.length_pos.mp (by decide)
    have hmem : (time_dim ordersEx).headI ∈ time_dim ordersEx := by
      cases hl : time_dim ordersEx with
      | nil => exact absurd hl hne
      | cons a t => simp
    exact (string_conversion_absent ordersEx detailsEx customersEx).1 _ hmem
  · exact (string_conversion_absent ordersEx detailsEx customersEx).2.2
      ⟨10, some ⟨2023, 12, 1⟩⟩ (by decide)

/-- Concrete check of C10: in the all-success environment the body still ends
with the NameError for bucket_name, the upload is in the trace, and the
success log is not. -/
theorem success_log_never_printed_witness :
    (tryBody envAllOk).err = some (Err.nameNotDefined "bucket_name")
    ∧ Ev.upload "etl_output.zip" ∈ (tryBody envAllOk).trace
    ∧ Ev.logSuccess ∉ (hello_gcs envAllOk).trace := by
  have h := success_log_never_printed envAllOk (by decide) (fun f => rfl) rfl
  exact ⟨h.1, h.2.1, h.2.2.1⟩
